import Mathlib

/-!
Shallow embedding of `rss2discord/__init__.py` (the delivery-state ledger,
delivery pipeline, content extractor and feed runner), with theorems checking
the natural-language specification against it.

Conventions:
* Python dict rows become `LedgerRecord` with `Option` fields (key absent = `none`).
* The ledger (`self.database`, a Python dict keyed by entry id) becomes an
  association list `Ledger` preserving insertion order; `dbSet` replaces in
  place or appends, like dict assignment.
* Timestamps (`datetime.now().timestamp()`) are modelled as `Int` seconds;
  `datetime.timedelta(days=n)` is `n * 86400` seconds.
* The outbound HTTP call (`requests.post`) is modelled by an oracle value
  `HttpResult` supplied per entry: either a status/body pair or a raised
  exception (requests can raise on timeout or connection error).
* External library collaborators (json.loads / json.dump, BeautifulSoup's img
  scan, html_to_markdown, urllib.parse.urljoin) are not part of this
  repository; where a claim needs them they are either parameters (the JSON
  codec) or minimal concrete models marked `Modelled from the spec:`.
-/

/-- Value stored under the `sent` key of a ledger row: `True` (populate mode)
or a numeric timestamp (successful network delivery). -/
inductive SentVal where
  | bool (b : Bool)
  | time (t : Int)
deriving DecidableEq, Repr

/-- Python truthiness of `row.get('sent')`: absent and `False` and `0` are
falsy; `True` and a nonzero timestamp are truthy. -/
def sentTruthy : Option SentVal → Bool
  | none => false
  | some (.bool b) => b
  | some (.time t) => t != 0

/-- An element of a row's `errors` list: `{code, text, when}`
(process_entry, lines 276-278). -/
structure ErrorRec where
  code : Nat
  text : String
  timeWhen : Int
deriving DecidableEq, Repr

/-- A row's `last_exception` value: `{error, time}` (process_feed,
lines 211-214). -/
structure ExcRec where
  error : String
  time : Int
deriving DecidableEq, Repr

/-- One ledger row (a Python dict); a key that may be absent is an `Option`. -/
structure LedgerRecord where
  url : Option String := none
  last_seen : Option Int := none
  sent : Option SentVal := none
  errors : Option (List ErrorRec) := none
  last_exception : Option ExcRec := none
deriving DecidableEq, Repr

/-- `self.database`: insertion-ordered mapping entry id → row. -/
abbrev Ledger := List (String × LedgerRecord)

/-- Dict lookup `database[k]` / `k in database`. -/
def dbGet : Ledger → String → Option LedgerRecord
  | [], _ => none
  | (k', v) :: rest, k => if k' = k then some v else dbGet rest k

/-- Dict assignment `database[k] = v`: replace the first binding of `k` in
place, or append a new binding. -/
def dbSet : Ledger → String → LedgerRecord → Ledger
  | [], k, v => [(k, v)]
  | (k', v') :: rest, k, v =>
    if k' = k then (k, v) :: rest else (k', v') :: dbSet rest k v

/-- Commandline options consumed by the pipeline (parse_arguments). -/
structure Options where
  dry_run : Bool
  populate : Bool
  max_age : Int
deriving DecidableEq, Repr

/-- Per-feed configuration (the FeedConfig namedtuple). -/
structure FeedConfig where
  feed_url : String
  username : Option String := none
  avatar_url : Option String := none
  include_summary : Bool := true
  include_image : Bool := true
deriving DecidableEq, Repr

/-- One item of `entry.media_content`. The Python code reads `item['medium']`,
`item['url']` and converts `item['height']` / `item['width']` with `int(...)`;
the numeric fields are modelled post-conversion. -/
structure MediaItem where
  medium : String
  url : String
  height : Option Int := none
  width : Option Int := none
deriving DecidableEq, Repr

/-- A parsed feed entry as consumed by the pipeline. `content` models
`entry.content[0].value` when the `content` key is present; `summary`
models `entry.summary`. -/
structure Entry where
  id : String
  link : String
  title : String
  summary : Option String := none
  content : Option String := none
  media_content : Option (List MediaItem) := none
deriving DecidableEq, Repr

/-- Feed-level metadata (`data.feed`): title and link. -/
structure FeedMeta where
  title : String
  link : String
deriving DecidableEq, Repr

/-- Result of `feedparser.parse`: the bozo flag and the entries. -/
structure ParsedFeed where
  bozo : Bool
  meta : FeedMeta
  entries : List Entry
deriving Repr

/-- Outcome of the `requests.post` call for one entry: an HTTP status with
response body, or a raised exception (timeout, connection error). -/
inductive HttpResult where
  | status (code : Nat) (text : String)
  | raised (msg : String)
deriving DecidableEq, Repr

/-! ### Character-level string helpers (Python str semantics, kept
structural-recursive so the kernel can evaluate them) -/

/-- Whitespace as recognised by Python `str.strip`. -/
def wsp (c : Char) : Bool :=
  c = ' ' || c = '\t' || c = '\n' || c = '\r' || c = '\x0b' || c = '\x0c'

/-- Python `str.strip()` on a character list. -/
def pyStripChars (l : List Char) : List Char :=
  ((l.dropWhile wsp).reverse.dropWhile wsp).reverse

/-- Python `str.strip()`. -/
def pyStrip (s : String) : String := String.mk (pyStripChars s.data)

/-- Split a character list at every occurrence of `c` (the separators are
dropped; an empty input gives one empty piece, like `String.splitOn`). -/
def splitOnChar (c : Char) : List Char → List (List Char)
  | [] => [[]]
  | d :: rest =>
    let r := splitOnChar c rest
    if d = c then [] :: r
    else
      match r with
      | [] => [[d]]
      | x :: xs => (d :: x) :: xs

/-- Python `str.splitlines()` restricted to `'\n'` separators: split at every
newline, without a trailing empty piece. -/
def splitlines (s : String) : List String :=
  let parts := splitOnChar '\n' s.data
  let parts :=
    match parts.reverse with
    | [] :: rest => rest.reverse
    | _ => parts
  parts.map (fun l => String.mk l)

/-- Does the first list occur as a leading segment of the second? -/
def startsWithChars : List Char → List Char → Bool
  | [], _ => true
  | _ :: _, [] => false
  | c :: cs, d :: ds => c = d && startsWithChars cs ds

/-- Does `pat` occur as a contiguous run inside the list? -/
def hasSubChars (pat : List Char) : List Char → Bool
  | [] => startsWithChars pat []
  | c :: rest => startsWithChars pat (c :: rest) || hasSubChars pat rest

/-- Substring containment test on strings. -/
def containsSub (s pat : String) : Bool := hasSubChars pat.data s.data

/-- Replace each tab with two spaces (`.replace('\t', '  ')` in to_markdown). -/
def replaceTabsChars : List Char → List Char
  | [] => []
  | '\t' :: rest => ' ' :: ' ' :: replaceTabsChars rest
  | c :: rest => c :: replaceTabsChars rest

/-! ### Modelled external collaborators (HTML scan, Markdown, urljoin) -/

/-- Reads the value of a `src=` attribute out of the inside of an `img` tag:
either quoted with `'` or `"`, or an unquoted run. `none` when the tag has no
`src` attribute (BeautifulSoup's `find_all('img', src=True)` skips those). -/
def srcValue : List Char → Option (List Char)
  | 's' :: 'r' :: 'c' :: '=' :: q :: rest =>
    if q = '\'' || q = '"' then some (rest.takeWhile (· ≠ q))
    else some ((q :: rest).takeWhile (fun c => !wsp c && c ≠ '>'))
  | _ :: rest => srcValue rest
  | [] => none

/-- Fuel-driven scan for `<img ...>` tags, collecting each tag's `src` value
in document order. One unit of fuel is spent per step; `fuel = length` input
is enough since every step consumes at least one character. -/
def imgSrcsF : Nat → List Char → List (List Char)
  | 0, _ => []
  | _ + 1, [] => []
  | fuel + 1, '<' :: 'i' :: 'm' :: 'g' :: rest =>
    let tag := rest.takeWhile (· ≠ '>')
    let rest' := (rest.dropWhile (· ≠ '>')).drop 1
    (match srcValue tag with
     | some v => [v]
     | none => []) ++ imgSrcsF fuel rest'
  | fuel + 1, _ :: rest => imgSrcsF fuel rest

/-- Modelled from the spec: the external HTML image-tag scanner
(`BeautifulSoup(...).find_all('img', src=True)`), a third-party collaborator
not in this repository. Collects the `src` attribute of every `<img>` element
in document order, skipping `img` tags without a `src` attribute. -/
def imgSrcs (s : String) : List String :=
  (imgSrcsF s.data.length s.data).map (fun l => String.mk l)

/-- Fuel-driven removal of HTML tags: drops every `<...>` run, keeps text. -/
def stripTagsF : Nat → List Char → List Char
  | 0, _ => []
  | _ + 1, [] => []
  | fuel + 1, '<' :: rest => stripTagsF fuel ((rest.dropWhile (· ≠ '>')).drop 1)
  | fuel + 1, c :: rest => c :: stripTagsF fuel rest

/-- Modelled from the spec: the external HTML-to-Markdown transform
(`html_to_markdown.convert_to_markdown` with the fixed option set of
`to_markdown`), a third-party collaborator not in this repository. Minimal
model: markup tags are removed (in particular every `<img>` tag, matching
`strip=['img']`) and the text content is kept. -/
def convert_to_markdown (html : String) : String :=
  String.mk (stripTagsF html.data.length html.data)

/-- Join character-list pieces with `'/'` between them. -/
def joinSlash : List (List Char) → List Char
  | [] => []
  | [x] => x
  | x :: xs => x ++ '/' :: joinSlash xs

/-- Modelled from the spec: `urllib.parse.urljoin`, a stdlib collaborator not
in this repository — "resolved to an absolute URL against `entry_link`".
Cases: empty url keeps the base; a url carrying a scheme (`"://"`) is already
absolute; a root-relative url (leading `/`) is joined to the base's
scheme+authority; otherwise the url replaces everything after the base's last
`/`. -/
def urljoin (base url : String) : String :=
  if url = "" then base
  else if containsSub url "://" then url
  else if url.data.head? = some '/' then
    String.mk (joinSlash ((splitOnChar '/' base.data).take 3) ++ url.data)
  else
    String.mk (joinSlash ((splitOnChar '/' base.data).dropLast) ++ '/' :: url.data)

/-! ### Content extractor (`to_markdown`, `get_content`) -/

/-- `to_markdown` (lines 60-71): empty/absent HTML gives `''`; otherwise the
external conversion, stripped, with tabs replaced by two spaces. -/
def to_markdown (html : String) : String :=
  if html = "" then ""
  else String.mk (replaceTabsChars (pyStripChars (convert_to_markdown html).data))

/-- `get_content` (lines 74-99): images from the content-priority HTML, each
`src` resolved against `entry.link`; markdown text from the summary-priority
HTML. -/
def get_content (entry : Entry) : String × List String :=
  let html :=
    match entry.content with
    | some c => c
    | none =>
      match entry.summary with
      | some s => s
      | none => ""
  let images := (imgSrcs html).map (urljoin entry.link)
  let md_text :=
    match entry.summary with
    | some s =>
      if s ≠ "" then to_markdown s
      else
        match entry.content with
        | some c => if c ≠ "" then to_markdown c else ""
        | none => ""
    | none =>
      match entry.content with
      | some c => if c ≠ "" then to_markdown c else ""
      | none => ""
  (md_text, images)

/-! ### Payload construction and image attachment (process_entry, part 1) -/

/-- An attached image object `{url, height?, width?}` under the embed's
`image` or `thumbnail` key. For structured media the code always writes the
`height`/`width` keys (with `None` when the item lacks them); for the inline
fallback it writes only `url`; both are modelled by the `Option` fields. -/
structure ImgAttach where
  url : String
  height : Option Int := none
  width : Option Int := none
deriving DecidableEq, Repr

/-- Build the attachment for a structured media item. -/
def mkAttach (item : MediaItem) : ImgAttach :=
  { url := item.url, height := item.height, width := item.width }

/-- The `for item in entry.media_content` loop (lines 246-253): an
`image`/`thumbnail`-typed item is attached under its own medium's key when
that key is not yet present in the embed (`medium not in embed`). -/
def mediaLoop : List MediaItem → Option ImgAttach → Option ImgAttach →
    Option ImgAttach × Option ImgAttach
  | [], img, thumb => (img, thumb)
  | item :: rest, img, thumb =>
    if item.medium = "image" then
      if img = none then mediaLoop rest (some (mkAttach item)) thumb
      else mediaLoop rest img thumb
    else if item.medium = "thumbnail" then
      if thumb = none then mediaLoop rest img (some (mkAttach item))
      else mediaLoop rest img thumb
    else mediaLoop rest img thumb

/-- The image-attachment block (lines 244-255): with `include_image`, the
structured media loop when `media_content` is present, else the first
extracted inline image as a thumbnail. Returns the embed's
(`image`, `thumbnail`) keys. -/
def embedImages (include_image : Bool) (media : Option (List MediaItem))
    (images : List String) : Option ImgAttach × Option ImgAttach :=
  if include_image then
    match media with
    | some items => mediaLoop items none none
    | none =>
      match images with
      | [] => (none, none)
      | i :: _ => (none, some { url := i })
  else (none, none)

/-- The embed object built by process_entry (lines 234-255). -/
structure Embed where
  url : String
  author_url : String
  author_name : String
  description : String
  image : Option ImgAttach := none
  thumbnail : Option ImgAttach := none
deriving DecidableEq, Repr

/-- The webhook payload; `embeds` is the singleton `[embed]` in the code. -/
structure Payload where
  username : Option String
  avatar_url : Option String
  embed : Embed
deriving DecidableEq, Repr

/-- Payload construction of process_entry (lines 222-257): optional sender
fields, the description text (linked title, optionally the extracted markdown
and a read-more link), and the image attachment policy. -/
def buildPayload (config : FeedConfig) (feed : FeedMeta) (entry : Entry) :
    Payload :=
  let mdImages := get_content entry
  let text := "## [" ++ to_markdown entry.title ++ "](" ++ entry.link ++ ")"
  let text :=
    if config.include_summary then
      text ++ "\n" ++ mdImages.1 ++ "\n-# [Read more...](<" ++ entry.link ++ ">)"
    else text
  let imgThumb := embedImages config.include_image entry.media_content mdImages.2
  { username := config.username,
    avatar_url := config.avatar_url,
    embed :=
      { url := entry.link,
        author_url := feed.link,
        author_name := to_markdown feed.title,
        description := text,
        image := imgThumb.1,
        thumbnail := imgThumb.2 } }

/-! ### Delivery attempt (process_entry, part 2) and the per-entry step -/

/-- The message of the `AttributeError` raised by `row['errors'].push(...)`
(line 276): Python lists have no `push` method, so the error record is never
appended. -/
def pushAttributeError : String :=
  "AttributeError: 'list' object has no attribute 'push'"

/-- `process_entry` (lines 216-279). Returns the row as mutated so far, the
list of webhook POSTs issued (each with its payload), and either the boolean
the Python function returns or the exception it raises. Under dry-run it
returns `False` before any POST. On a non-2xx status the code first ensures
`row['errors']` exists (that mutation persists), then calls `.push`, which
raises `AttributeError`. -/
def process_entry (options : Options) (config : FeedConfig) (feed : FeedMeta)
    (entry : Entry) (row : LedgerRecord) (resp : HttpResult) :
    LedgerRecord × List Payload × Except String Bool :=
  let payload := buildPayload config feed entry
  if options.dry_run then (row, [], .ok false)
  else
    match resp with
    | .raised msg => (row, [payload], .error msg)
    | .status code _text =>
      if code / 100 = 2 then (row, [payload], .ok true)
      else
        let row :=
          if row.errors = none then { row with errors := some [] } else row
        (row, [payload], .error pushAttributeError)

/-- The unconditional per-entry refresh of lines 195-198:
`row['url'] = entry.link; row['last_seen'] = now`. -/
def rowSeen (entry : Entry) (now : Int) (row0 : LedgerRecord) : LedgerRecord :=
  { row0 with url := some entry.link, last_seen := some now }

/-- The body of the entry loop of `process_feed` (lines 191-214): create the
row if absent, refresh `url` and `last_seen`, and if `sent` is not truthy,
either mark `sent = True` (populate mode) or attempt delivery, marking
`sent = now` on success; an exception from the attempt is caught and stored
as `last_exception`. Returns the updated ledger and the POSTs issued, tagged
with the entry id. -/
def processFeedEntry (options : Options) (config : FeedConfig)
    (feed : FeedMeta) (entry : Entry) (resp : HttpResult) (now : Int)
    (db : Ledger) : Ledger × List (String × Payload) :=
  let row := rowSeen entry now ((dbGet db entry.id).getD {})
  if sentTruthy row.sent then (dbSet db entry.id row, [])
  else if options.populate then
    (dbSet db entry.id { row with sent := some (.bool true) }, [])
  else
    match process_entry options config feed entry row resp with
    | (row', posts, .ok true) =>
      (dbSet db entry.id { row' with sent := some (.time now) },
       posts.map (fun p => (entry.id, p)))
    | (row', posts, .ok false) =>
      (dbSet db entry.id row', posts.map (fun p => (entry.id, p)))
    | (row', posts, .error msg) =>
      (dbSet db entry.id
        { row' with last_exception := some { error := msg, time := now } },
       posts.map (fun p => (entry.id, p)))

/-- The entry loop of `process_feed`, threading the ledger through the
entries in order and concatenating the POSTs issued. `respOf` supplies the
HTTP outcome the webhook would give for each entry id. -/
def processEntries (options : Options) (config : FeedConfig) (feed : FeedMeta)
    (respOf : String → HttpResult) (now : Int) :
    List Entry → Ledger → Ledger × List (String × Payload)
  | [], db => (db, [])
  | e :: rest, db =>
    let step := processFeedEntry options config feed e (respOf e.id) now db
    let restResult := processEntries options config feed respOf now rest step.1
    (restResult.1, step.2 ++ restResult.2)

/-- `process_feed` (lines 181-214): a bozo parse skips the feed entirely;
otherwise every entry is processed in order. -/
def process_feed (options : Options) (config : FeedConfig) (data : ParsedFeed)
    (respOf : String → HttpResult) (now : Int) (db : Ledger) :
    Ledger × List (String × Payload) :=
  if data.bozo then (db, [])
  else processEntries options config data.meta respOf now data.entries db

/-! ### Ledger pruning, flush and load -/

/-- The pruning step of `flushdb` (lines 142-157): with `max_age > 0`, keep
exactly the rows having a `last_seen` strictly greater than
`now - max_age` days; otherwise leave the ledger untouched. -/
def pruneDb (max_age now : Int) (db : Ledger) : Ledger :=
  if max_age > 0 then
    let cutoff := now - max_age * 86400
    db.filter (fun item =>
      match item.2.last_seen with
      | some t => t > cutoff
      | none => false)
  else db

/-- The persistent state owned by one `DiscordRSS` run: the in-memory ledger,
the configured database path, and the ledger file's on-disk content (the
serialized bytes, `none` when the file does not exist). -/
structure AgentState where
  database : Ledger
  database_file : String
  disk : Option String
deriving Repr

/-- `flushdb` (lines 140-166): prune (when `max_age > 0`), then write the
ledger to disk unless the path is empty or dry-run is on. `ser` models the
external `json.dump` serialization of the ledger to file bytes. -/
def flushdb (ser : Ledger → String) (options : Options) (now : Int)
    (st : AgentState) : AgentState :=
  let db := pruneDb options.max_age now st.database
  if st.database_file ≠ "" ∧ ¬options.dry_run then
    { st with database := db, disk := some (ser db) }
  else { st with database := db }

/-- One full pipeline run over a single feed, as `process` does (lines
168-179): process the feed, then flush the database once. `nowRun` is the
per-entry clock of the run, `nowFlush` the clock at flush time. -/
def runPipeline (ser : Ledger → String) (options : Options)
    (config : FeedConfig) (data : ParsedFeed) (respOf : String → HttpResult)
    (nowRun nowFlush : Int) (st : AgentState) :
    AgentState × List (String × Payload) :=
  let fed := process_feed options config data respOf nowRun st.database
  (flushdb ser options nowFlush { st with database := fed.1 }, fed.2)

/-- The database-loading logic of `DiscordRSS.__init__` (lines 121-138),
given the file's content (`none` = `FileNotFoundError`). `jp` models the
external `json.loads` of a ledger mapping (`none` = `JSONDecodeError`); on
parse failure each line of the old-format file becomes a row holding only
`last_seen = now`. -/
def loadDatabase (jp : String → Option Ledger) (fileContent : Option String)
    (now : Int) : Ledger :=
  match fileContent with
  | none => []
  | some dbtext =>
    match jp dbtext with
    | some db => db
    | none =>
      (splitlines dbtext).map (fun line =>
        (pyStrip line, { last_seen := some now }))

/-- `DiscordRSS.__init__` state setup (lines 105-138): the ledger is loaded
from the configured file when one is set; nothing is written back to disk
during load. -/
def initAgent (jp : String → Option Ledger) (database_file : String)
    (disk : Option String) (now : Int) : AgentState :=
  { database := if database_file ≠ "" then loadDatabase jp disk now else [],
    database_file := database_file,
    disk := disk }

/-! ### Pipeline operations, for the `sent`-monotonicity invariant -/

/-- One ledger-mutating pipeline operation: processing one feed entry, or the
prune-and-flush step. -/
inductive PipelineOp where
  | entryStep (config : FeedConfig) (feed : FeedMeta) (entry : Entry)
      (resp : HttpResult) (now : Int)
  | flushStep (now : Int)

/-- Apply one pipeline operation to the ledger. -/
def applyOp (options : Options) (db : Ledger) : PipelineOp → Ledger
  | .entryStep config feed entry resp now =>
    (processFeedEntry options config feed entry resp now db).1
  | .flushStep now => pruneDb options.max_age now db

/-! ### Helper lemmas about the ledger association list -/

lemma dbGet_dbSet_self (db : Ledger) (k : String) (v : LedgerRecord) :
    dbGet (dbSet db k v) k = some v := by
  induction db with
  | nil => simp [dbSet, dbGet]
  | cons hd tl ih =>
    by_cases h : hd.1 = k
    · simp [dbSet, dbGet, h]
    · simpa [dbSet, dbGet, h] using ih

lemma dbGet_dbSet_ne (db : Ledger) (k k' : String) (v : LedgerRecord)
    (h : k' ≠ k) : dbGet (dbSet db k v) k' = dbGet db k' := by
  induction db with
  | nil => simp [dbSet, dbGet, Ne.symm h]
  | cons hd tl ih =>
    by_cases hk : hd.1 = k
    · subst hk
      simp [dbSet, dbGet, Ne.symm h]
    · simp only [dbSet, if_neg hk, dbGet]
      by_cases hk' : hd.1 = k' <;> simp [hk', ih]

lemma mem_of_dbGet {db : Ledger} {k : String} {v : LedgerRecord}
    (h : dbGet db k = some v) : (k, v) ∈ db := by
  induction db with
  | nil => simp [dbGet] at h
  | cons hd tl ih =>
    rcases hd with ⟨k', v'⟩
    by_cases hk : k' = k
    · subst hk
      simp [dbGet] at h
      simp [h]
    · simp only [dbGet, if_neg hk] at h
      exact List.mem_cons_of_mem _ (ih h)

lemma dbGet_of_mem_nodup {db : Ledger} {k : String} {v : LedgerRecord}
    (hn : (db.map Prod.fst).Nodup) (h : (k, v) ∈ db) :
    dbGet db k = some v := by
  induction db with
  | nil => simp at h
  | cons hd tl ih =>
    rcases hd with ⟨k', v'⟩
    simp only [List.map_cons, List.nodup_cons] at hn
    rcases List.mem_cons.mp h with h1 | h1
    · rcases Prod.mk.injEq .. ▸ h1 with ⟨hk, hv⟩
      simp [dbGet, hk.symm, hv]
    · have hk : k' ≠ k := by
        intro he
        exact hn.1 (he ▸ (List.mem_map.mpr ⟨(k, v), h1, rfl⟩))
      simp [dbGet, hk, ih hn.2 h1]

/-! ### C3 — retention / pruning -/

/-- C3: pruning at flush time with retention `max_age > 0` removes exactly
the rows whose `last_seen` is missing or at most `now - max_age` days, and
keeps exactly those with `last_seen` strictly greater than the cutoff; with
retention zero or negative, no row is removed. -/
theorem c3_prune_retention (max_age now : Int) (db : Ledger) :
    (max_age > 0 → ∀ id r,
      ((id, r) ∈ pruneDb max_age now db ↔
        ((id, r) ∈ db ∧ ∃ t, r.last_seen = some t ∧ t > now - max_age * 86400)))
    ∧ (max_age ≤ 0 → pruneDb max_age now db = db) := by
  constructor
  · intro hpos id r
    simp only [pruneDb, if_pos hpos, List.mem_filter]
    constructor
    · rintro ⟨hm, hp⟩
      refine ⟨hm, ?_⟩
      cases hl : r.last_seen with
      | none => simp [hl] at hp
      | some t =>
        refine ⟨t, rfl, ?_⟩
        simpa [hl] using hp
    · rintro ⟨hm, t, hl, ht⟩
      exact ⟨hm, by simp [hl, ht]⟩
  · intro hle
    simp [pruneDb, not_lt.mpr hle]

/-- Concrete instance of C3: with retention 1 day at time 200000, a row last
seen at 150000 (newer than the cutoff 113600) is kept. -/
theorem c3_witness :
    ("a", ({ last_seen := some 150000 } : LedgerRecord)) ∈
      pruneDb 1 200000 [("a", { last_seen := some 150000 })] :=
  ((c3_prune_retention 1 200000 [("a", { last_seen := some 150000 })]).1
      (by norm_num) "a" { last_seen := some 150000 }).mpr
    ⟨by simp, 150000, rfl, by norm_num⟩

/-! ### C9 / C10 — image attachment policy -/

lemma mediaLoop_some_some (items : List MediaItem) (a b : ImgAttach) :
    mediaLoop items (some a) (some b) = (some a, some b) := by
  induction items with
  | nil => rfl
  | cons item rest ih => simp [mediaLoop, ih]

lemma mediaLoop_some_none (items : List MediaItem) (a : ImgAttach) :
    mediaLoop items (some a) none =
      (some a,
       (items.find? (fun it => it.medium == "thumbnail")).map mkAttach) := by
  induction items with
  | nil => rfl
  | cons item rest ih =>
    by_cases h : item.medium = "thumbnail"
    · rw [List.find?_cons_of_pos _ (by simp [h])]
      simp [mediaLoop, h, mediaLoop_some_some, mkAttach]
    · rw [List.find?_cons_of_neg _ (by simp [h])]
      by_cases h2 : item.medium = "image" <;> simp [mediaLoop, h, h2, ih]

lemma mediaLoop_none_some (items : List MediaItem) (b : ImgAttach) :
    mediaLoop items none (some b) =
      ((items.find? (fun it => it.medium == "image")).map mkAttach,
       some b) := by
  induction items with
  | nil => rfl
  | cons item rest ih =>
    by_cases h : item.medium = "image"
    · rw [List.find?_cons_of_pos _ (by simp [h])]
      simp [mediaLoop, h, mediaLoop_some_some, mkAttach]
    · rw [List.find?_cons_of_neg _ (by simp [h])]
      by_cases h2 : item.medium = "thumbnail" <;> simp [mediaLoop, h, h2, ih]

lemma mediaLoop_none_none (items : List MediaItem) :
    mediaLoop items none none =
      ((items.find? (fun it => it.medium == "image")).map mkAttach,
       (items.find? (fun it => it.medium == "thumbnail")).map mkAttach) := by
  induction items with
  | nil => rfl
  | cons item rest ih =>
    by_cases h : item.medium = "image"
    · rw [@List.find?_cons_of_pos _ (fun it => it.medium == "image") item rest (by simp [h]),
        @List.find?_cons_of_neg _ (fun it => it.medium == "thumbnail") item rest (by simp [h])]
      simp [mediaLoop, h, mediaLoop_some_none, mkAttach]
    · rw [@List.find?_cons_of_neg _ (fun it => it.medium == "image") item rest (by simp [h])]
      by_cases h2 : item.medium = "thumbnail"
      · rw [List.find?_cons_of_pos _ (by simp [h2])]
        simp [mediaLoop, h, h2, mediaLoop_none_some, mkAttach]
      · rw [List.find?_cons_of_neg _ (by simp [h2])]
        simp [mediaLoop, h, h2, ih]

/-- Number of images attached to an embed (its `image` plus `thumbnail`
keys). -/
def attachCount (e : Embed) : Nat :=
  e.image.toList.length + e.thumbnail.toList.length

/-- Shared fixture: a feed configuration with all defaults. -/
def wConfig : FeedConfig := { feed_url := "http://feed/" }

/-- Shared fixture: feed-level metadata. -/
def wMeta : FeedMeta := { title := "F", link := "http://f/" }

/-- An entry whose structured media list holds an `image`-typed item and then
a `thumbnail`-typed item, plus an inline image in its summary. -/
def c9cexEntry : Entry :=
  { id := "m1", link := "http://l/", title := "T",
    summary := some "<p><img src='http://inline/i.png'></p>",
    media_content := some
      [{ medium := "image", url := "http://m/img.png" },
       { medium := "thumbnail", url := "http://m/thumb.png" }] }

/-- C9 counterexample: for an entry exposing one `image`-typed and one
`thumbnail`-typed media item, the code attaches BOTH (the guard
`medium not in embed` is per medium), so the payload carries two images,
refuting "in all cases at most one image is attached". -/
theorem c9_counterexample :
    ¬ attachCount (buildPayload wConfig wMeta c9cexEntry).embed ≤ 1 ∧
    (buildPayload wConfig wMeta c9cexEntry).embed.image
      = some { url := "http://m/img.png" } ∧
    (buildPayload wConfig wMeta c9cexEntry).embed.thumbnail
      = some { url := "http://m/thumb.png" } := by
  refine ⟨by decide, by decide, by decide⟩

/-- C9 (amended): with image inclusion enabled, for each medium kind
(`image`, `thumbnail`) separately the first media item of that kind is
attached under that kind's key (with its optional height/width) — so up to
one per kind, i.e. up to two in total; without a structured media list the
first extracted image URL is attached as the thumbnail; with image inclusion
disabled nothing is attached; and the payload's embed carries exactly the
attachments computed by this policy. -/
theorem c9_image_policy :
    (∀ (items : List MediaItem) (images : List String),
      embedImages true (some items) images
        = ((items.find? (fun it => it.medium == "image")).map mkAttach,
           (items.find? (fun it => it.medium == "thumbnail")).map mkAttach))
    ∧ (∀ images : List String,
      embedImages true none images
        = (none, images.head?.map (fun i => ({ url := i } : ImgAttach))))
    ∧ (∀ (media : Option (List MediaItem)) (images : List String),
      embedImages false media images = (none, none))
    ∧ (∀ (config : FeedConfig) (feed : FeedMeta) (entry : Entry),
      (buildPayload config feed entry).embed.image
          = (embedImages config.include_image entry.media_content
              (get_content entry).2).1
        ∧ (buildPayload config feed entry).embed.thumbnail
          = (embedImages config.include_image entry.media_content
              (get_content entry).2).2) := by
  refine ⟨?_, ?_, ?_, ?_⟩
  · intro items images
    simp [embedImages, mediaLoop_none_none]
  · intro images
    cases images <;> simp [embedImages]
  · intro media images
    simp [embedImages]
  · intro config feed entry
    exact ⟨rfl, rfl⟩

/-- C10: a structured media list with no `image`/`thumbnail`-typed item
suppresses any image attachment entirely — the inline-image fallback is not
consulted even when extraction produced image URLs. -/
theorem c10_media_suppresses_inline
    (config : FeedConfig) (feed : FeedMeta) (entry : Entry)
    (items : List MediaItem)
    (hm : entry.media_content = some items)
    (hnone : ∀ it ∈ items, it.medium ≠ "image" ∧ it.medium ≠ "thumbnail") :
    (buildPayload config feed entry).embed.image = none ∧
    (buildPayload config feed entry).embed.thumbnail = none := by
  have himg : items.find? (fun it => it.medium == "image") = none :=
    List.find?_eq_none.mpr (fun x hx => by simp [(hnone x hx).1])
  have hth : items.find? (fun it => it.medium == "thumbnail") = none :=
    List.find?_eq_none.mpr (fun x hx => by simp [(hnone x hx).2])
  by_cases hi : config.include_image
  · constructor <;>
      simp [buildPayload, hm, hi, embedImages, mediaLoop_none_none, himg, hth]
  · have hi' : config.include_image = false := by
      simpa using hi
    constructor <;> simp [buildPayload, hm, hi', embedImages]

/-- An entry with a media list holding only an `audio`-typed item, plus an
inline image in its summary. -/
def c10wEntry : Entry :=
  { id := "m2", link := "http://l/", title := "T",
    summary := some "<p><img src='http://inline/j.png'></p>",
    media_content := some [{ medium := "audio", url := "http://m/a.mp3" }] }

/-- Concrete instance of C10: the `audio`-only media list yields no image
attachment although the summary holds an inline image. -/
theorem c10_witness :
    (buildPayload wConfig wMeta c10wEntry).embed.image = none ∧
    (buildPayload wConfig wMeta c10wEntry).embed.thumbnail = none :=
  c10_media_suppresses_inline wConfig wMeta c10wEntry
    [{ medium := "audio", url := "http://m/a.mp3" }] rfl (by decide)

/-! ### C8 — content extraction -/

/-- The spec's content-extraction example: summary-only entry with an inline
image, entry link `http://x/`. -/
def c8Entry : Entry :=
  { id := "e1", link := "http://x/", title := "t",
    summary := some "<p>Hello <img src='a.png'>world</p>" }

/-- C8: images are scanned from the rich-content HTML when present, else the
summary HTML, each `src` resolved against the entry link in document order;
text comes from the summary HTML when present and non-empty, else the
rich-content HTML, converted to Markdown; and on the spec's example the image
list is `["http://x/a.png"]` and the markdown contains `Hello` and `world`
but no raw image tag. -/
theorem c8_content_extraction :
    (∀ (entry : Entry) (c : String), entry.content = some c →
      (get_content entry).2 = (imgSrcs c).map (urljoin entry.link))
    ∧ (∀ (entry : Entry) (s : String), entry.content = none →
        entry.summary = some s →
        (get_content entry).2 = (imgSrcs s).map (urljoin entry.link))
    ∧ (∀ entry : Entry, entry.content = none → entry.summary = none →
        (get_content entry).2 = [])
    ∧ (∀ (entry : Entry) (s : String), entry.summary = some s → s ≠ "" →
        (get_content entry).1 = to_markdown s)
    ∧ (∀ (entry : Entry) (c : String),
        (entry.summary = none ∨ entry.summary = some "") →
        entry.content = some c → c ≠ "" →
        (get_content entry).1 = to_markdown c)
    ∧ ((get_content c8Entry).2 = ["http://x/a.png"]
       ∧ containsSub (get_content c8Entry).1 "Hello" = true
       ∧ containsSub (get_content c8Entry).1 "world" = true
       ∧ containsSub (get_content c8Entry).1 "<img" = false) := by
  refine ⟨?_, ?_, ?_, ?_, ?_, by decide, by decide, by decide, by decide⟩
  · intro entry c hc
    simp [get_content, hc]
  · intro entry s hc hs
    simp [get_content, hc, hs]
  · intro entry hc hs
    simp [get_content, hc, hs, imgSrcs, imgSrcsF]
  · intro entry s hs hne
    simp [get_content, hs, hne]
  · intro entry c hs hc hne
    rcases hs with hs | hs <;> simp [get_content, hs, hc, hne]

/-- Concrete instance of C8's image-source selection: on the example entry
(no rich content, summary present) the images come from the summary HTML,
resolved against the entry link. -/
theorem c8_witness :
    (get_content c8Entry).2 =
      (imgSrcs "<p>Hello <img src='a.png'>world</p>").map
        (urljoin "http://x/") :=
  c8_content_extraction.2.1 c8Entry "<p>Hello <img src='a.png'>world</p>"
    rfl rfl

/-! ### C7 — ledger load -/

/-- C7: a missing ledger file yields an empty ledger; file content the JSON
codec rejects is parsed as one identifier per line, each line yielding a row
holding only `last_seen = now` (no `sent`, no `url`); and loading never
touches the on-disk content. `jp` is the external `json.loads`. -/
theorem c7_ledger_load :
    (∀ (jp : String → Option Ledger) (f : String) (now : Int),
      (initAgent jp f none now).database = [])
    ∧ (∀ (jp : String → Option Ledger) (f text : String) (now : Int),
        f ≠ "" → jp text = none →
        (initAgent jp f (some text) now).database
          = (splitlines text).map (fun line =>
              (pyStrip line, ({ last_seen := some now } : LedgerRecord))))
    ∧ (∀ (jp : String → Option Ledger) (f : String) (disk : Option String)
        (now : Int), (initAgent jp f disk now).disk = disk)
    ∧ (∀ (jp : String → Option Ledger) (text : String) (now : Int)
        (id : String) (r : LedgerRecord), jp text = none →
        (id, r) ∈ loadDatabase jp (some text) now →
        r.sent = none ∧ r.url = none ∧ r.last_seen = some now) := by
  refine ⟨?_, ?_, ?_, ?_⟩
  · intro jp f now
    by_cases hf : f = "" <;> simp [initAgent, hf, loadDatabase]
  · intro jp f text now hf hjp
    simp [initAgent, hf, loadDatabase, hjp]
  · intro jp f disk now
    rfl
  · intro jp text now id r hjp hm
    simp only [loadDatabase, hjp, List.mem_map] at hm
    rcases hm with ⟨line, _, he⟩
    rcases Prod.mk.injEq .. ▸ he with ⟨_, hr⟩
    rw [← hr]
    exact ⟨rfl, rfl, rfl⟩

/-- Concrete instance of C7's legacy migration: the two-line file
`"entry-1\nentry-2"`, rejected by the JSON codec, loads into two rows each
holding only `last_seen`. -/
theorem c7_witness :
    (initAgent (fun _ => none) "db.json" (some "entry-1\nentry-2") 100).database
      = [("entry-1", { last_seen := some 100 }),
         ("entry-2", { last_seen := some 100 })] := by
  rw [c7_ledger_load.2.1 (fun _ => none) "db.json" "entry-1\nentry-2" 100
    (by decide) rfl]
  decide

/-! ### C2 — delivery outcome mapping (and the `.push` defect) -/

/-- C2, evaluated on the code: a 204 response marks `sent` with the numeric
timestamp and adds no error entry; but a 429 response with body
`"rate limited"` does NOT append `{code, text, when}` to the row's `errors` —
the code calls `row['errors'].push(...)`, which raises `AttributeError`
(lists have no `push`), so `errors` is left freshly initialised to `[]` and
the exception is recorded as `last_exception` instead. -/
theorem c2_push_attribute_error
    (options : Options) (config : FeedConfig) (feed : FeedMeta)
    (entry : Entry) (now : Int) (db : Ledger)
    (hdry : options.dry_run = false) (hpop : options.populate = false)
    (hfresh : dbGet db entry.id = none) :
    (dbGet (processFeedEntry options config feed entry
        (.status 204 "") now db).1 entry.id
      = some { url := some entry.link, last_seen := some now,
               sent := some (.time now) })
    ∧ (dbGet (processFeedEntry options config feed entry
        (.status 429 "rate limited") now db).1 entry.id
      = some { url := some entry.link, last_seen := some now,
               errors := some [],
               last_exception :=
                 some { error := pushAttributeError, time := now } }) := by
  constructor <;>
    simp [processFeedEntry, rowSeen, process_entry, hfresh, hdry, hpop,
      sentTruthy, dbGet_dbSet_self]

/-- A fresh feed entry used to instantiate C2 concretely. -/
def c2wEntry : Entry := { id := "x1", link := "http://l/", title := "T" }

/-- Options for a real send: no dry-run, no populate, 30-day retention. -/
def wOptsSend : Options := { dry_run := false, populate := false, max_age := 30 }

/-- Concrete instance of C2's outcome mapping on an empty ledger. -/
theorem c2_witness :
    (dbGet (processFeedEntry wOptsSend wConfig wMeta c2wEntry
        (.status 204 "") 7 []).1 "x1"
      = some { url := some "http://l/", last_seen := some 7,
               sent := some (.time 7) })
    ∧ (dbGet (processFeedEntry wOptsSend wConfig wMeta c2wEntry
        (.status 429 "rate limited") 7 []).1 "x1"
      = some { url := some "http://l/", last_seen := some 7,
               errors := some [],
               last_exception :=
                 some { error := pushAttributeError, time := 7 } }) :=
  c2_push_attribute_error wOptsSend wConfig wMeta c2wEntry 7 [] rfl rfl rfl

/-! ### C6 — per-entry exception isolation -/

/-- C6: an unexpected failure raised while delivering one entry is caught:
it is recorded as that row's `last_exception` (error description plus
timestamp), the entry is left unsent, and the loop continues with the
remaining entries of the same feed on the updated ledger. -/
theorem c6_exception_isolation
    (options : Options) (config : FeedConfig) (feed : FeedMeta)
    (entry : Entry) (rest : List Entry) (respOf : String → HttpResult)
    (msg : String) (now : Int) (db : Ledger)
    (hdry : options.dry_run = false) (hpop : options.populate = false)
    (hresp : respOf entry.id = .raised msg)
    (hsent : sentTruthy ((dbGet db entry.id).getD {}).sent = false) :
    (dbGet (processFeedEntry options config feed entry
        (respOf entry.id) now db).1 entry.id
      = some { (dbGet db entry.id).getD {} with
               url := some entry.link, last_seen := some now,
               last_exception := some { error := msg, time := now } })
    ∧ sentTruthy (((dbGet (processFeedEntry options config feed entry
        (respOf entry.id) now db).1 entry.id).getD {}).sent) = false
    ∧ processEntries options config feed respOf now (entry :: rest) db
      = ((processEntries options config feed respOf now rest
            (processFeedEntry options config feed entry
              (respOf entry.id) now db).1).1,
         (processFeedEntry options config feed entry
            (respOf entry.id) now db).2
           ++ (processEntries options config feed respOf now rest
                (processFeedEntry options config feed entry
                  (respOf entry.id) now db).1).2) := by
  have hstep : dbGet (processFeedEntry options config feed entry
      (respOf entry.id) now db).1 entry.id
      = some { (dbGet db entry.id).getD {} with
               url := some entry.link, last_seen := some now,
               last_exception := some { error := msg, time := now } } := by
    simp [processFeedEntry, rowSeen, process_entry, hresp, hdry, hpop, hsent,
      dbGet_dbSet_self]
  refine ⟨hstep, ?_, rfl⟩
  rw [hstep]
  simpa using hsent

/-- A fresh feed entry used to instantiate C6 concretely. -/
def c6wEntry : Entry := { id := "x2", link := "http://l2/", title := "U" }

/-- Concrete instance of C6: a raised delivery exception on an empty ledger
is recorded and leaves the entry unsent. -/
theorem c6_witness :
    (dbGet (processFeedEntry wOptsSend wConfig wMeta c6wEntry
        (.raised "boom") 9 []).1 "x2"
      = some { url := some "http://l2/", last_seen := some 9,
               last_exception := some { error := "boom", time := 9 } })
    ∧ sentTruthy (((dbGet (processFeedEntry wOptsSend wConfig wMeta c6wEntry
        (.raised "boom") 9 []).1 "x2").getD {}).sent) = false
    ∧ processEntries wOptsSend wConfig wMeta (fun _ => .raised "boom") 9
        [c6wEntry] []
      = ((processEntries wOptsSend wConfig wMeta (fun _ => .raised "boom") 9 []
            (processFeedEntry wOptsSend wConfig wMeta c6wEntry
              (.raised "boom") 9 []).1).1,
         (processFeedEntry wOptsSend wConfig wMeta c6wEntry
            (.raised "boom") 9 []).2
           ++ (processEntries wOptsSend wConfig wMeta (fun _ => .raised "boom") 9 []
                (processFeedEntry wOptsSend wConfig wMeta c6wEntry
                  (.raised "boom") 9 []).1).2) :=
  c6_exception_isolation wOptsSend wConfig wMeta c6wEntry []
    (fun _ => .raised "boom") "boom" 9 [] rfl rfl rfl (by decide)

/-! ### C5 — dry-run purity -/

/-- The `sent` value the ledger holds for an entry id (`none` when the row or
the key is absent). -/
def sentOf (db : Ledger) (id : String) : Option SentVal :=
  ((dbGet db id).getD {}).sent


/-- The row stored back by one `processFeedEntry` step, as a function of the
row looked up (or freshly created) for the entry. -/
def rowAfter (options : Options) (config : FeedConfig) (feed : FeedMeta)
    (entry : Entry) (resp : HttpResult) (now : Int) (row0 : LedgerRecord) :
    LedgerRecord :=
  let row := rowSeen entry now row0
  if sentTruthy row.sent then row
  else if options.populate then { row with sent := some (.bool true) }
  else
    match process_entry options config feed entry row resp with
    | (row', _, .ok true) => { row' with sent := some (.time now) }
    | (row', _, .ok false) => row'
    | (row', _, .error msg) =>
      { row' with last_exception := some { error := msg, time := now } }

/-- The POSTs issued by one `processFeedEntry` step, as a function of the
looked-up row. -/
def postsAfter (options : Options) (config : FeedConfig) (feed : FeedMeta)
    (entry : Entry) (resp : HttpResult) (now : Int) (row0 : LedgerRecord) :
    List Payload :=
  let row := rowSeen entry now row0
  if sentTruthy row.sent then []
  else if options.populate then []
  else (process_entry options config feed entry row resp).2.1

lemma processFeedEntry_eq (options : Options) (config : FeedConfig)
    (feed : FeedMeta) (entry : Entry) (resp : HttpResult) (now : Int)
    (db : Ledger) :
    processFeedEntry options config feed entry resp now db
      = (dbSet db entry.id
          (rowAfter options config feed entry resp now
            ((dbGet db entry.id).getD {})),
         (postsAfter options config feed entry resp now
            ((dbGet db entry.id).getD {})).map (fun p => (entry.id, p))) := by
  unfold processFeedEntry rowAfter postsAfter
  by_cases hs : sentTruthy
      (rowSeen entry now ((dbGet db entry.id).getD {})).sent = true
  · simp [hs]
  · by_cases hp : options.populate = true
    · simp [hs, hp]
    · simp only [hs, hp, if_false, Bool.false_eq_true]
      rcases hpe : process_entry options config feed entry
          (rowSeen entry now ((dbGet db entry.id).getD {})) resp
        with ⟨row', posts, res⟩
      cases res with
      | ok b => cases b <;> rfl
      | error msg => rfl

lemma rowSeen_sent (entry : Entry) (now : Int) (row0 : LedgerRecord) :
    (rowSeen entry now row0).sent = row0.sent := rfl

lemma rowAfter_of_truthy (options : Options) (config : FeedConfig)
    (feed : FeedMeta) (entry : Entry) (resp : HttpResult) (now : Int)
    (row0 : LedgerRecord) (h : sentTruthy row0.sent = true) :
    rowAfter options config feed entry resp now row0
      = rowSeen entry now row0 := by
  unfold rowAfter
  simp [rowSeen_sent, h]

lemma postsAfter_of_truthy (options : Options) (config : FeedConfig)
    (feed : FeedMeta) (entry : Entry) (resp : HttpResult) (now : Int)
    (row0 : LedgerRecord) (h : sentTruthy row0.sent = true) :
    postsAfter options config feed entry resp now row0 = [] := by
  unfold postsAfter
  simp [rowSeen_sent, h]

lemma postsAfter_dry (options : Options) (config : FeedConfig)
    (feed : FeedMeta) (entry : Entry) (resp : HttpResult) (now : Int)
    (row0 : LedgerRecord) (hdry : options.dry_run = true) :
    postsAfter options config feed entry resp now row0 = [] := by
  unfold postsAfter
  by_cases hs : sentTruthy (rowSeen entry now row0).sent = true
  · simp [hs]
  · by_cases hp : options.populate = true
    · simp [hs, hp]
    · simp [hs, hp, process_entry, hdry]

lemma rowAfter_sent_dry (options : Options) (config : FeedConfig)
    (feed : FeedMeta) (entry : Entry) (resp : HttpResult) (now : Int)
    (row0 : LedgerRecord) (hdry : options.dry_run = true)
    (hpop : options.populate = false) :
    (rowAfter options config feed entry resp now row0).sent = row0.sent := by
  unfold rowAfter
  by_cases hs : sentTruthy row0.sent = true
  · simp [rowSeen_sent, hs]
  · simp [rowSeen_sent, hs, hpop, process_entry, hdry]

lemma step_posts_dry (options : Options) (config : FeedConfig)
    (feed : FeedMeta) (entry : Entry) (resp : HttpResult) (now : Int)
    (db : Ledger) (hdry : options.dry_run = true) :
    (processFeedEntry options config feed entry resp now db).2 = [] := by
  rw [processFeedEntry_eq, postsAfter_dry _ _ _ _ _ _ _ hdry]
  rfl

lemma step_sentOf_dry (options : Options) (config : FeedConfig)
    (feed : FeedMeta) (entry : Entry) (resp : HttpResult) (now : Int)
    (db : Ledger) (id : String) (hdry : options.dry_run = true)
    (hpop : options.populate = false) :
    sentOf (processFeedEntry options config feed entry resp now db).1 id
      = sentOf db id := by
  rw [processFeedEntry_eq]
  unfold sentOf
  by_cases hid : id = entry.id
  · rw [hid, dbGet_dbSet_self]
    simp [rowAfter_sent_dry _ _ _ _ _ _ _ hdry hpop]
  · rw [dbGet_dbSet_ne _ _ _ _ hid]

lemma entries_posts_dry (options : Options) (config : FeedConfig)
    (feed : FeedMeta) (respOf : String → HttpResult) (now : Int)
    (hdry : options.dry_run = true) :
    ∀ (entries : List Entry) (db : Ledger),
      (processEntries options config feed respOf now entries db).2 = [] := by
  intro entries
  induction entries with
  | nil => intro db; rfl
  | cons e rest ih =>
    intro db
    simp [processEntries, step_posts_dry _ _ _ _ _ _ _ hdry, ih]

lemma entries_sentOf_dry (options : Options) (config : FeedConfig)
    (feed : FeedMeta) (respOf : String → HttpResult) (now : Int)
    (hdry : options.dry_run = true) (hpop : options.populate = false) :
    ∀ (entries : List Entry) (db : Ledger) (id : String),
      sentOf (processEntries options config feed respOf now entries db).1 id
        = sentOf db id := by
  intro entries
  induction entries with
  | nil => intro db id; rfl
  | cons e rest ih =>
    intro db id
    simp only [processEntries]
    rw [ih, step_sentOf_dry _ _ _ _ _ _ _ _ hdry hpop]

/-- C5 (amended): under dry-run no webhook POST is ever issued and the ledger
file on disk is left untouched (the save step is skipped); and when populate
mode is off, no row's `sent` value changes either. (With populate also on,
rows can still be marked `sent = True` in memory even under dry-run, because
the populate branch precedes the dry-run check — the file is still not
written.) -/
theorem c5_dry_run_purity (ser : Ledger → String) (options : Options)
    (config : FeedConfig) (data : ParsedFeed) (respOf : String → HttpResult)
    (now nowF : Int) (st : AgentState)
    (hdry : options.dry_run = true) :
    (process_feed options config data respOf now st.database).2 = []
    ∧ (flushdb ser options nowF st).disk = st.disk
    ∧ (options.populate = false → ∀ id,
        sentOf (process_feed options config data respOf now st.database).1 id
          = sentOf st.database id) := by
  refine ⟨?_, ?_, ?_⟩
  · unfold process_feed
    split
    · rfl
    · exact entries_posts_dry _ _ _ _ _ hdry _ _
  · simp [flushdb, hdry]
  · intro hpop id
    unfold process_feed
    split
    · rfl
    · exact entries_sentOf_dry _ _ _ _ _ hdry hpop _ _ _

/-- Options with both dry-run and populate on. -/
def c5cexOptions : Options :=
  { dry_run := true, populate := true, max_age := 30 }

/-- A fresh feed entry used in the C5 counterexample. -/
def c5cexEntry : Entry := { id := "n1", link := "http://n/", title := "N" }

/-- C5 counterexample: with dry-run on but populate also on, processing a
fresh entry marks its row `sent = True` in memory (the populate branch runs
before the dry-run check), refuting "under dry-run no entry's record is ever
marked sent" as universally stated. -/
theorem c5_counterexample :
    sentTruthy (sentOf (process_feed c5cexOptions wConfig
      { bozo := false, meta := wMeta, entries := [c5cexEntry] }
      (fun _ => .status 204 "") 5 []).1 "n1") = true := by decide

/-- Dry-run options with populate off. -/
def c5wOptions : Options :=
  { dry_run := true, populate := false, max_age := 30 }

/-- A one-row state with a configured database file and existing disk bytes. -/
def c5wState : AgentState :=
  { database := [("old", { last_seen := some 1 })],
    database_file := "db.json", disk := some "oldbytes" }

/-- Concrete instance of C5 (amended): a dry run over one new entry issues no
POST, leaves the disk bytes untouched and changes no `sent` value. -/
theorem c5_witness :
    (process_feed c5wOptions wConfig
        { bozo := false, meta := wMeta, entries := [c5cexEntry] }
        (fun _ => .status 204 "") 5 c5wState.database).2 = []
    ∧ (flushdb (fun _ => "newbytes") c5wOptions 6 c5wState).disk
        = some "oldbytes"
    ∧ sentOf (process_feed c5wOptions wConfig
        { bozo := false, meta := wMeta, entries := [c5cexEntry] }
        (fun _ => .status 204 "") 5 c5wState.database).1 "n1"
        = sentOf c5wState.database "n1" :=
  ⟨(c5_dry_run_purity (fun _ => "newbytes") c5wOptions wConfig
      { bozo := false, meta := wMeta, entries := [c5cexEntry] }
      (fun _ => .status 204 "") 5 6 c5wState rfl).1,
   (c5_dry_run_purity (fun _ => "newbytes") c5wOptions wConfig
      { bozo := false, meta := wMeta, entries := [c5cexEntry] }
      (fun _ => .status 204 "") 5 6 c5wState rfl).2.1,
   (c5_dry_run_purity (fun _ => "newbytes") c5wOptions wConfig
      { bozo := false, meta := wMeta, entries := [c5cexEntry] }
      (fun _ => .status 204 "") 5 6 c5wState rfl).2.2 rfl "n1"⟩

/-! ### C4 — `sent` only moves forward -/

/-- C4: no pipeline operation (entry processing, pruning/flush) ever resets a
truthy `sent` back to absent/false while the row still exists: whenever the
row for an id survives an operation, a truthy `sent` stays truthy. The
`Nodup` hypothesis is the dict invariant (one row per id). -/
theorem c4_sent_monotone (options : Options) (op : PipelineOp) (db : Ledger)
    (id : String) (r r' : LedgerRecord)
    (hn : (db.map Prod.fst).Nodup)
    (hget : dbGet db id = some r) (htruthy : sentTruthy r.sent = true)
    (hget' : dbGet (applyOp options db op) id = some r') :
    sentTruthy r'.sent = true := by
  cases op with
  | entryStep config feed entry resp now =>
    simp only [applyOp] at hget'
    rw [processFeedEntry_eq] at hget'
    by_cases hid : id = entry.id
    · rw [hid] at hget hget'
      rw [dbGet_dbSet_self] at hget'
      have hr' : r' = rowAfter options config feed entry resp now r := by
        rw [hget] at hget'
        simpa using hget'.symm
      rw [hr', rowAfter_of_truthy _ _ _ _ _ _ _ htruthy, rowSeen_sent]
      exact htruthy
    · rw [dbGet_dbSet_ne _ _ _ _ hid, hget] at hget'
      rw [← Option.some.inj hget']
      exact htruthy
  | flushStep now =>
    simp only [applyOp, pruneDb] at hget'
    by_cases hma : options.max_age > 0
    · rw [if_pos hma] at hget'
      have hmem : (id, r') ∈ db :=
        (List.mem_filter.mp (mem_of_dbGet hget')).1
      have hsame : dbGet db id = some r' := dbGet_of_mem_nodup hn hmem
      rw [hget] at hsame
      rw [← Option.some.inj hsame]
      exact htruthy
    · rw [if_neg hma, hget] at hget'
      rw [← Option.some.inj hget']
      exact htruthy

/-- A one-row ledger whose row is already sent (populate-style `True`). -/
def c4wDb : Ledger :=
  [("a", { last_seen := some 100, sent := some (.bool true) })]

/-- Concrete instance of C4: a flush (prune at time 200 with 30-day
retention) keeps the row and its `sent` stays truthy. -/
theorem c4_witness :
    sentTruthy
      (({ last_seen := some 100, sent := some (.bool true) } :
        LedgerRecord)).sent = true :=
  c4_sent_monotone wOptsSend (.flushStep 200) c4wDb "a"
    { last_seen := some 100, sent := some (.bool true) }
    { last_seen := some 100, sent := some (.bool true) }
    (by decide) (by decide) (by decide) (by decide)

/-! ### C1 — at-most-once delivery / idempotence -/

/-- How many webhook POSTs a run issued for a given entry id. -/
def countPosts (id : String) (posts : List (String × Payload)) : Nat :=
  (posts.filter (fun p => p.1 == id)).length

/-- The row a fresh entry ends up with after a successful (2xx) delivery at
time `now1`. -/
def rowDelivered (e : Entry) (now1 : Int) : LedgerRecord :=
  { url := some e.link, last_seen := some now1, sent := some (.time now1) }

/-- C1: an entry whose row already has a truthy `sent` gets no delivery
attempt and its `sent` is not changed (first conjunct: the step only
refreshes `url`/`last_seen` and issues no POST); consequently two full
pipeline runs over the same one-entry feed, the first delivery answering
2xx at a nonzero timestamp, issue exactly one POST for that entry id in
total (second conjunct). -/
theorem c1_at_most_once :
    (∀ (options : Options) (config : FeedConfig) (feed : FeedMeta)
        (entry : Entry) (resp : HttpResult) (now : Int) (db : Ledger)
        (r : LedgerRecord),
      dbGet db entry.id = some r → sentTruthy r.sent = true →
      processFeedEntry options config feed entry resp now db
        = (dbSet db entry.id (rowSeen entry now r), []))
    ∧ (∀ (ser : Ledger → String) (options : Options) (config : FeedConfig)
        (meta : FeedMeta) (e : Entry) (s : Nat) (t : String)
        (respOf2 : String → HttpResult) (now1 nowF1 now2 nowF2 : Int)
        (file : String) (disk : Option String),
      options.dry_run = false → options.populate = false →
      200 ≤ s → s < 300 → now1 ≠ 0 →
      (options.max_age ≤ 0 ∨ now1 > nowF1 - options.max_age * 86400) →
      countPosts e.id
        ((runPipeline ser options config
            { bozo := false, meta := meta, entries := [e] }
            (fun _ => .status s t) now1 nowF1
            { database := [], database_file := file, disk := disk }).2
         ++ (runPipeline ser options config
              { bozo := false, meta := meta, entries := [e] }
              respOf2 now2 nowF2
              (runPipeline ser options config
                { bozo := false, meta := meta, entries := [e] }
                (fun _ => .status s t) now1 nowF1
                { database := [], database_file := file, disk := disk }).1).2)
        = 1) := by
  constructor
  · intro options config feed entry resp now db r hget htruthy
    rw [processFeedEntry_eq, hget]
    simp only [Option.getD_some]
    rw [rowAfter_of_truthy _ _ _ _ _ _ _ htruthy,
      postsAfter_of_truthy _ _ _ _ _ _ _ htruthy]
    rfl
  · intro ser options config meta e s t respOf2 now1 nowF1 now2 nowF2 file
      disk hdry hpop hs200 hs300 hnow1 hsurv
    have hs2 : s / 100 = 2 := by omega
    have hstep1 : processFeedEntry options config meta e (.status s t) now1 []
        = ([(e.id, rowDelivered e now1)],
           [(e.id, buildPayload config meta e)]) := by
      rw [processFeedEntry_eq]
      simp [rowAfter, postsAfter, rowSeen, sentTruthy, hpop, process_entry,
        hdry, hs2, dbSet, dbGet, rowDelivered]
    have hfeed1 : process_feed options config
        { bozo := false, meta := meta, entries := [e] }
        (fun _ => .status s t) now1 []
        = ([(e.id, rowDelivered e now1)],
           [(e.id, buildPayload config meta e)]) := by
      unfold process_feed
      simp [processEntries, hstep1]
    have htruthy1 : sentTruthy (rowDelivered e now1).sent = true := by
      simp [rowDelivered, sentTruthy, hnow1]
    have hprune : pruneDb options.max_age nowF1 [(e.id, rowDelivered e now1)]
        = [(e.id, rowDelivered e now1)] := by
      unfold pruneDb
      rcases hsurv with h | h
      · rw [if_neg (by omega)]
      · by_cases hma : options.max_age > 0
        · rw [if_pos hma]
          simp [rowDelivered, h]
        · rw [if_neg hma]
    have hdb1 : (runPipeline ser options config
        { bozo := false, meta := meta, entries := [e] }
        (fun _ => .status s t) now1 nowF1
        { database := [], database_file := file, disk := disk }).1.database
        = [(e.id, rowDelivered e now1)] := by
      unfold runPipeline flushdb
      rw [hfeed1]
      simp only
      rw [hprune]
      split <;> rfl
    have hposts1 : (runPipeline ser options config
        { bozo := false, meta := meta, entries := [e] }
        (fun _ => .status s t) now1 nowF1
        { database := [], database_file := file, disk := disk }).2
        = [(e.id, buildPayload config meta e)] := by
      unfold runPipeline
      rw [hfeed1]
    have hlook : dbGet [(e.id, rowDelivered e now1)] e.id
        = some (rowDelivered e now1) := by
      simp [dbGet]
    have hstep2 : (processFeedEntry options config meta e (respOf2 e.id) now2
        [(e.id, rowDelivered e now1)]).2 = [] := by
      rw [processFeedEntry_eq, hlook]
      simp only [Option.getD_some]
      rw [postsAfter_of_truthy _ _ _ _ _ _ _ htruthy1]
      rfl
    have hfeed2 : (process_feed options config
        { bozo := false, meta := meta, entries := [e] } respOf2 now2
        [(e.id, rowDelivered e now1)]).2 = [] := by
      unfold process_feed
      simp [processEntries, hstep2]
    have hposts2 : (runPipeline ser options config
        { bozo := false, meta := meta, entries := [e] }
        respOf2 now2 nowF2
        (runPipeline ser options config
          { bozo := false, meta := meta, entries := [e] }
          (fun _ => .status s t) now1 nowF1
          { database := [], database_file := file, disk := disk }).1).2
        = [] := by
      have hsnd : ∀ st : AgentState,
          (runPipeline ser options config
            { bozo := false, meta := meta, entries := [e] }
            respOf2 now2 nowF2 st).2
          = (process_feed options config
              { bozo := false, meta := meta, entries := [e] } respOf2 now2
              st.database).2 := fun _ => rfl
      rw [hsnd, hdb1]
      exact hfeed2
    rw [hposts1, hposts2]
    simp [countPosts]

/-- An entry whose row is already sent, for the C1 witness. -/
def c1wEntry : Entry := { id := "d1", link := "http://d/", title := "D" }

/-- A fresh entry delivered across two runs, for the C1 witness. -/
def c1wEntryB : Entry := { id := "d2", link := "http://d2/", title := "E" }

/-- Concrete instance of C1: an already-sent row is only refreshed with no
POST, and two full runs over a fresh one-entry feed POST exactly once. -/
theorem c1_witness :
    (processFeedEntry wOptsSend wConfig wMeta c1wEntry (.status 500 "err") 50
        [("d1", { sent := some (.bool true) })]
      = (dbSet [("d1", { sent := some (.bool true) })] "d1"
          (rowSeen c1wEntry 50 { sent := some (.bool true) }), []))
    ∧ countPosts "d2"
        ((runPipeline (fun _ => "") wOptsSend wConfig
            { bozo := false, meta := wMeta, entries := [c1wEntryB] }
            (fun _ => .status 204 "") 1000 1000
            { database := [], database_file := "f.json", disk := none }).2
         ++ (runPipeline (fun _ => "") wOptsSend wConfig
              { bozo := false, meta := wMeta, entries := [c1wEntryB] }
              (fun _ => .status 204 "") 2000 2000
              (runPipeline (fun _ => "") wOptsSend wConfig
                { bozo := false, meta := wMeta, entries := [c1wEntryB] }
                (fun _ => .status 204 "") 1000 1000
                { database := [], database_file := "f.json",
                  disk := none }).1).2)
        = 1 :=
  ⟨c1_at_most_once.1 wOptsSend wConfig wMeta c1wEntry (.status 500 "err") 50
      [("d1", { sent := some (.bool true) })] { sent := some (.bool true) }
      (by decide) (by decide),
   c1_at_most_once.2 (fun _ => "") wOptsSend wConfig wMeta c1wEntryB 204 ""
      (fun _ => .status 204 "") 1000 1000 2000 2000 "f.json" none
      rfl rfl (by decide) (by decide) (by decide) (Or.inr (by decide))⟩
